import Mathlib

/-!
Shallow embedding of the backend abstraction and routing layer of the
code-execution deep agent (`src/agent/backend_local_exec.py`,
`src/agent/runner.py`, `src/agent/config.py`).

Python strings are modelled as `List Char` (`PyStr`), so that Python's
slicing semantics (`s[:n]`, `s[-n:]`) can be reproduced exactly, including
the corner case that `s[-0:]` is the whole string.  Environment variables
keep Lean `String`s, since only key lookup matters there.  The operating
system's behaviour on one `subprocess.run` call is abstracted as a
`ProcOutcome`: the process either completed with captured stdout/stderr and
a return code, raised `subprocess.TimeoutExpired`, or raised some other
exception whose rendered message is recorded.
-/

namespace CodeExec

/-- A Python `str`, as a list of characters. -/
abbrev PyStr := List Char

/-- Python slice `s[-n:]`: the last `n` characters, except that `s[-0:]`
is the whole string (Python treats `-0` as `0`). -/
def pyTakeLast (s : PyStr) (n : Nat) : PyStr :=
  if n = 0 then s else s.drop (s.length - n)

/-- `ExecuteResponse` from `deepagents.backends.protocol`, as constructed by
`LocalExecutionBackend.execute`: combined output, exit code, truncation flag. -/
structure ExecuteResponse where
  output : PyStr
  exit_code : Int
  truncated : Bool
deriving DecidableEq, Repr

/-- The outcome the operating system produces for one `subprocess.run` call:
normal completion with captured stdout, stderr and return code; or
`subprocess.TimeoutExpired`; or any other exception `e`, carrying `str(e)`. -/
inductive ProcOutcome where
  | completed (stdout stderr : PyStr) (returncode : Int)
  | timedOut
  | failed (msg : PyStr)
deriving DecidableEq, Repr

/-- The state of a `LocalExecutionBackend` instance after `__init__`
(`backend_local_exec.py` lines 29-49).  `cwd` is the configured working
directory, modelled as `pathlib`'s parsed path components after the root
anchor (so `Path("/a/b").name` is the last component, and the empty list
models the bare root, whose `name` is `""`). -/
structure LocalExecutionBackend where
  cwd : List String
  default_timeout : Nat
  max_output_chars : Nat
  env_allowlist : List (String × String)

/-- `__init__` with an optional allowlist: `self.env_allowlist = env_allowlist or {}`
(a `None` allowlist becomes the empty mapping).  The Python defaults are
`default_timeout = 120` and `max_output_chars = 50_000`. -/
def initBackend (root_dir : List String) (default_timeout : Nat)
    (max_output_chars : Nat) (env_allowlist : Option (List (String × String))) :
    LocalExecutionBackend :=
  ⟨root_dir, default_timeout, max_output_chars, env_allowlist.getD []⟩

/-- Python dict assignment `d[k] = v` on an association list: replace the
binding in place if the key is present, otherwise append it. -/
def dictInsert : List (String × String) → String → String → List (String × String)
  | [], k, v => [(k, v)]
  | (k', v') :: rest, k, v =>
    if k' = k then (k, v) :: rest else (k', v') :: dictInsert rest k v

/-- Python dict lookup `d[k]` / `d.get(k)` on an association list. -/
def dictGet : List (String × String) → String → Option String
  | [], _ => none
  | (k', v') :: rest, k => if k' = k then some v' else dictGet rest k

/-- `LocalExecutionBackend._build_env` (lines 112-131): start from an empty
dict; for each key of `self.env_allowlist`, copy the host value when the key
is present in `os.environ`; then force-include `PATH` from the host when it
is present there and not already in the dict.  `environ` is `os.environ`. -/
def LocalExecutionBackend.build_env (b : LocalExecutionBackend)
    (environ : String → Option String) : List (String × String) :=
  let env := b.env_allowlist.foldl (fun acc kv =>
    match environ kv.1 with
    | some v => dictInsert acc kv.1 v
    | none => acc) []
  if dictGet env "PATH" = none then
    match environ "PATH" with
    | some v => dictInsert env "PATH" v
    | none => env
  else env

/-- Combination of captured streams (lines 80-83):
`output = proc.stdout or ""`, then if `proc.stderr` is non-empty,
`output += ("\n" if output else "") + proc.stderr`. -/
def combineOutput (stdout stderr : PyStr) : PyStr :=
  let output := stdout
  if stderr ≠ [] then
    output ++ (if output ≠ [] then ['\n'] else []) ++ stderr
  else output

/-- The literal separator the code inserts between the kept head and tail:
`head + "\n... [truncated] ...\n" + tail` (line 91). -/
def truncMarker : PyStr := "\n... [truncated] ...\n".data

/-- `LocalExecutionBackend.execute` (lines 51-110), as a function of the
backend state and the OS outcome of the spawned process.  On completion the
streams are combined; if the combined output exceeds `max_output_chars`, the
first `max_output_chars // 2` and last `max_output_chars // 2` characters are
kept around `truncMarker`.  `TimeoutExpired` yields exit code 124;
any other exception `e` is caught and yields exit code 1 with output
`f"Error executing command: {e}"`.  Totality of this function models that
`execute` never lets an exception propagate to the caller. -/
def LocalExecutionBackend.execute (b : LocalExecutionBackend)
    (command : PyStr) (outcome : ProcOutcome) : ExecuteResponse :=
  match outcome with
  | .completed stdout stderr returncode =>
    let output := combineOutput stdout stderr
    let truncated : Bool := decide (output.length > b.max_output_chars)
    let output :=
      if output.length > b.max_output_chars then
        let half := b.max_output_chars / 2
        output.take half ++ truncMarker ++ pyTakeLast output half
      else output
    { output := output, exit_code := returncode, truncated := truncated }
  | .timedOut =>
    { output := "Command timed out after ".data
        ++ (toString b.default_timeout).data ++ "s".data
      exit_code := 124
      truncated := false }
  | .failed e =>
    { output := "Error executing command: ".data ++ e
      exit_code := 1
      truncated := false }

/-- Modelled from the spec: the `CompositeBackend` router is supplied by the
external `deepagents` library and its code is not under `src/`; only its
construction sites (`runner.py` lines 64-68, `config.py` lines 60-65) are.
Per the spec it holds one mandatory default backend plus a mapping of virtual
path-prefixes to backends. -/
structure CompositeBackend (β : Type) where
  default : β
  routes : List (PyStr × β)

/-- Modelled from the spec: "find the longest registered prefix that is a
literal prefix of the virtual path".  Among the registered routes whose
prefix is a literal prefix of `path`, the one with the longest prefix is
selected (the earliest registered wins a length tie; the spec's reference
design has no nested prefixes, so ties between distinct matches cannot
arise there). -/
def bestRoute {β : Type} : List (PyStr × β) → PyStr → Option (PyStr × β)
  | [], _ => none
  | r :: rest, path =>
    if r.1.isPrefixOf path then
      match bestRoute rest path with
      | none => some r
      | some b => if b.1.length ≤ r.1.length then some r else some b
    else bestRoute rest path

/-- Modelled from the spec: "strip that prefix (preserving a leading `/` for
the remainder)" — the matched prefix is removed and the remainder is given a
leading slash when it does not already start with one. -/
def stripToRemainder (pre path : PyStr) : PyStr :=
  let rest := path.drop pre.length
  match rest with
  | [] => ['/']
  | c :: cs => if c = '/' then c :: cs else '/' :: c :: cs

/-- Modelled from the spec: the router's dispatch rule for every operation
that carries a path argument — forward to the backend of the longest
matching prefix with the stripped remainder, or to the default backend with
the path unchanged when no prefix matches. -/
def dispatch {β : Type} (c : CompositeBackend β) (path : PyStr) : β × PyStr :=
  match bestRoute c.routes path with
  | some pb => (pb.2, stripToRemainder pb.1 path)
  | none => (c.default, path)

/-- `pathlib.PurePath.name`: the final path component, or `""` when there is
none. -/
def pathName (parts : List String) : String :=
  (parts.getLast?).getD ""

/-- The `id` property (lines 133-140): `f"local-exec-{self.cwd.name}"`. -/
def LocalExecutionBackend.id (b : LocalExecutionBackend) : String :=
  "local-exec-" ++ pathName b.cwd

lemma dictGet_dictInsert_self (d : List (String × String)) (k v : String) :
    dictGet (dictInsert d k v) k = some v := by
  induction d with
  | nil => simp [dictInsert, dictGet]
  | cons hd tl ih =>
    obtain ⟨a, av⟩ := hd
    by_cases h : a = k <;> simp [dictInsert, dictGet, h, ih]

lemma dictGet_dictInsert_ne (d : List (String × String)) (k v k' : String)
    (h : k' ≠ k) : dictGet (dictInsert d k v) k' = dictGet d k' := by
  induction d with
  | nil => simp [dictInsert, dictGet, Ne.symm h]
  | cons hd tl ih =>
    obtain ⟨a, av⟩ := hd
    by_cases ha : a = k <;> simp [dictInsert, dictGet, ha, Ne.symm h, ih]

/-- Invariant of the copying loop of `_build_env`, for an arbitrary starting
dict: a key ends up mapped to its host value when it is an allowlist key
present in the host environment, and is otherwise untouched. -/
lemma dictGet_build_env_loop (environ : String → Option String)
    (allow : List (String × String)) (acc : List (String × String)) (k : String) :
    dictGet (allow.foldl (fun acc kv =>
        match environ kv.1 with
        | some v => dictInsert acc kv.1 v
        | none => acc) acc) k =
      if k ∈ allow.map Prod.fst ∧ (environ k).isSome then environ k
      else dictGet acc k := by
  induction allow generalizing acc with
  | nil => simp
  | cons hd tl ih =>
    obtain ⟨a, av⟩ := hd
    rw [List.foldl_cons, ih]
    by_cases hmem : k ∈ tl.map Prod.fst ∧ (environ k).isSome
    · rw [if_pos hmem, if_pos ⟨List.mem_cons_of_mem _ hmem.1, hmem.2⟩]
    · rw [if_neg hmem]
      by_cases hak : a = k
      · subst hak
        cases he : environ a with
        | some v =>
          simp only [he, dictGet_dictInsert_self]
          rw [if_pos ⟨by simp, by simp⟩]
        | none =>
          simp only [he]
          rw [if_neg]
          intro hc
          simp at hc
      · cases he : environ a with
        | some v =>
          simp only [he, dictGet_dictInsert_ne acc a v k (Ne.symm hak)]
          rw [if_neg]
          rintro ⟨hk, hs⟩
          simp only [List.map_cons, List.mem_cons] at hk
          rcases hk with h1 | h1
          · exact hak h1.symm
          · exact hmem ⟨h1, hs⟩
        | none =>
          simp only [he]
          rw [if_neg]
          rintro ⟨hk, hs⟩
          simp only [List.map_cons, List.mem_cons] at hk
          rcases hk with h1 | h1
          · exact hak h1.symm
          · exact hmem ⟨h1, hs⟩

/-- The copying loop started from the empty dict: a key is mapped to its
host value exactly when it is an allowlist key, and to nothing otherwise
(an allowlist key absent from the host yields `none` on both sides). -/
lemma dictGet_build_env_core (environ : String → Option String)
    (allow : List (String × String)) (k : String) :
    dictGet (allow.foldl (fun acc kv =>
        match environ kv.1 with
        | some v => dictInsert acc kv.1 v
        | none => acc) []) k =
      if k ∈ allow.map Prod.fst then environ k else none := by
  rw [dictGet_build_env_loop]
  by_cases hk : k ∈ allow.map Prod.fst
  · cases he : environ k with
    | some v => rw [if_pos ⟨hk, by simp [he]⟩, if_pos hk]
    | none => simp [dictGet, he, hk]
  · simp [dictGet, hk]

/-- Full characterization of `_build_env`: the produced subprocess
environment maps a name to its host value exactly when the name is `PATH`
or an allowlist key, and maps nothing else. -/
lemma build_env_dictGet (b : LocalExecutionBackend)
    (environ : String → Option String) (k : String) :
    dictGet (b.build_env environ) k =
      if k = "PATH" ∨ k ∈ b.env_allowlist.map Prod.fst then environ k else none := by
  unfold LocalExecutionBackend.build_env
  simp only []
  by_cases hp : dictGet (b.env_allowlist.foldl (fun acc kv =>
      match environ kv.1 with
      | some v => dictInsert acc kv.1 v
      | none => acc) []) "PATH" = none
  · rw [if_pos hp]
    cases he : environ "PATH" with
    | some v =>
      by_cases hk : k = "PATH"
      · subst hk
        rw [dictGet_dictInsert_self, if_pos (Or.inl rfl), he]
      · rw [dictGet_dictInsert_ne _ _ _ _ hk, dictGet_build_env_core]
        by_cases hmem : k ∈ b.env_allowlist.map Prod.fst
        · rw [if_pos hmem, if_pos (Or.inr hmem)]
        · rw [if_neg hmem, if_neg (by tauto)]
    | none =>
      rw [dictGet_build_env_core]
      by_cases hk : k = "PATH"
      · subst hk
        simp [he]
      · by_cases hmem : k ∈ b.env_allowlist.map Prod.fst
        · rw [if_pos hmem, if_pos (Or.inr hmem)]
        · rw [if_neg hmem, if_neg (by tauto)]
  · rw [if_neg hp, dictGet_build_env_core]
    rw [dictGet_build_env_core] at hp
    by_cases hk : k = "PATH"
    · subst hk
      by_cases hmem : "PATH" ∈ b.env_allowlist.map Prod.fst
      · rw [if_pos hmem, if_pos (Or.inl rfl)]
      · rw [if_neg hmem] at hp
        exact absurd rfl hp
    · by_cases hmem : k ∈ b.env_allowlist.map Prod.fst
      · rw [if_pos hmem, if_pos (Or.inr hmem)]
      · rw [if_neg hmem, if_neg (by tauto)]

/-- Claim C1: for every allowlist and host environment, the subprocess
environment built by `_build_env` maps a variable name to its host value
exactly when the name is an allowlist key (present in the host) or `PATH`
(present in the host), and contains no other variables.  In particular the
forced `PATH` entry carries the host's `PATH` value and is only added when
not already included via the allowlist. -/
theorem build_env_exactly_allowlisted_plus_path (b : LocalExecutionBackend)
    (environ : String → Option String) (k : String) :
    dictGet (b.build_env environ) k =
      if k = "PATH" ∨ k ∈ b.env_allowlist.map Prod.fst then environ k else none :=
  build_env_dictGet b environ k

/-- Claim C10: the values of `env_allowlist` are never used, only its keys —
two backends whose allowlists have the same key set build extensionally
identical subprocess environments over any host, and every value in the
built environment comes from the host environment. -/
theorem env_allowlist_values_unused (a1 a2 : List (String × String))
    (t m : Nat) (cwd : List String) (environ : String → Option String)
    (hkeys : ∀ k, k ∈ a1.map Prod.fst ↔ k ∈ a2.map Prod.fst) :
    (∀ k, dictGet ((LocalExecutionBackend.mk cwd t m a1).build_env environ) k =
          dictGet ((LocalExecutionBackend.mk cwd t m a2).build_env environ) k) ∧
    (∀ k v, dictGet ((LocalExecutionBackend.mk cwd t m a1).build_env environ) k = some v →
          environ k = some v) := by
  constructor
  · intro k
    rw [build_env_dictGet, build_env_dictGet]
    by_cases hc : k = "PATH" ∨ k ∈ a1.map Prod.fst
    · rw [if_pos hc, if_pos (by rcases hc with h | h; exact Or.inl h; exact Or.inr ((hkeys k).mp h))]
    · rw [if_neg hc, if_neg (by rintro (h | h); exact hc (Or.inl h); exact hc (Or.inr ((hkeys k).mpr h)))]
  · intro k v h
    rw [build_env_dictGet] at h
    by_cases hc : k = "PATH" ∨ k ∈ a1.map Prod.fst
    · rwa [if_pos hc] at h
    · rw [if_neg hc] at h
      exact absurd h (by simp)

/-- Witness for C10: allowlists `[("HOME", "x")]` and `[("HOME", "y")]` share
the key set `{HOME}` but differ in values; over a concrete host environment
the built environments agree pointwise and draw every value from the host. -/
theorem env_allowlist_values_unused_witness :
    (∀ k, k ∈ ([("HOME", "x")] : List (String × String)).map Prod.fst ↔
          k ∈ ([("HOME", "y")] : List (String × String)).map Prod.fst) ∧
    ((∀ k, dictGet ((LocalExecutionBackend.mk ["w"] 120 50000 [("HOME", "x")]).build_env
            (fun s => if s = "HOME" then some "h" else if s = "PATH" then some "p" else none)) k =
          dictGet ((LocalExecutionBackend.mk ["w"] 120 50000 [("HOME", "y")]).build_env
            (fun s => if s = "HOME" then some "h" else if s = "PATH" then some "p" else none)) k) ∧
    (∀ k v, dictGet ((LocalExecutionBackend.mk ["w"] 120 50000 [("HOME", "x")]).build_env
            (fun s => if s = "HOME" then some "h" else if s = "PATH" then some "p" else none)) k = some v →
          (fun s => if s = "HOME" then some "h" else if s = "PATH" then some "p" else none) k = some v)) :=
  ⟨by simp, env_allowlist_values_unused [("HOME", "x")] [("HOME", "y")] 120 50000 ["w"]
    (fun s => if s = "HOME" then some "h" else if s = "PATH" then some "p" else none) (by simp)⟩

/-- Claim C2: whenever the spawned process exceeds the configured timeout
(`subprocess.TimeoutExpired`), `execute` returns exit code 124, the exact
output `"Command timed out after <N>s"` for the configured timeout `N`, and
`truncated = false`. -/
theorem timeout_returns_124 (b : LocalExecutionBackend) (command : PyStr) :
    b.execute command ProcOutcome.timedOut =
      { output := "Command timed out after ".data
          ++ (toString b.default_timeout).data ++ "s".data
        exit_code := 124
        truncated := false } := rfl

/-- Claim C4: whenever the process cannot be launched (any exception other
than a timeout, carrying message `e`), `execute` catches it and returns exit
code 1 with the rendered error message as output; `execute` being a total
function into `ExecuteResponse`, no failure propagates to the caller. -/
theorem launch_failure_caught (b : LocalExecutionBackend) (command e : PyStr) :
    b.execute command (ProcOutcome.failed e) =
      { output := "Error executing command: ".data ++ e
        exit_code := 1
        truncated := false } := rfl

/-- Claim C5: for a command that launches and finishes within the timeout,
the returned `exit_code` is exactly the child process's return code. -/
theorem exit_code_mirrors_process (b : LocalExecutionBackend)
    (command stdout stderr : PyStr) (rc : Int) :
    (b.execute command (ProcOutcome.completed stdout stderr rc)).exit_code = rc := rfl

/-- Claim C7: for a command that completes within the timeout, `truncated`
is true iff the combined pre-truncation output is longer than the configured
`max_output_chars`. -/
theorem truncated_iff_over_max (b : LocalExecutionBackend)
    (command stdout stderr : PyStr) (rc : Int) :
    (b.execute command (ProcOutcome.completed stdout stderr rc)).truncated = true ↔
      b.max_output_chars < (combineOutput stdout stderr).length := by
  simp [LocalExecutionBackend.execute]

/-- Counterexample to claim C6 as stated: with empty stdout and non-empty
stderr the code emits stderr alone, not a newline followed by stderr — the
newline is inserted only when stdout is non-empty. -/
theorem c6_counterexample :
    ((initBackend ["workspace"] 120 50000 none).execute "cmd".data
        (ProcOutcome.completed [] "err".data 0)).output = "err".data ∧
    "err".data ≠ ([] : PyStr) ++ '\n' :: "err".data := by decide

/-- Claim C6 (amended): the combined pre-truncation output is stdout, then a
newline exactly when BOTH stdout and stderr are non-empty, then stderr. -/
theorem combined_output_newline_iff_both (stdout stderr : PyStr) :
    combineOutput stdout stderr =
      stdout ++ (if stdout ≠ [] ∧ stderr ≠ [] then ['\n'] else []) ++ stderr := by
  unfold combineOutput
  by_cases h1 : stderr = [] <;> by_cases h2 : stdout = [] <;> simp [h1, h2]

/-- Counterexample to claim C3 as stated: with `max_output_chars = 5` (odd)
and combined output `"abcdef"` (length 6), the returned output has length
`2*(5/2) + 21 = 25`, which differs from `maximum + len(marker)` whether the
marker is counted with its surrounding newlines (21) or without (19). -/
theorem c3_counterexample :
    ((initBackend ["workspace"] 120 5 none).execute "cmd".data
        (ProcOutcome.completed "abcdef".data [] 0)).output.length = 25 ∧
    (25 : Nat) ≠ 5 + truncMarker.length ∧
    (25 : Nat) ≠ 5 + ("... [truncated] ...".data).length := by decide

/-- Claim C3 (amended): for `max_output_chars ≥ 2` and combined output
strictly longer than it, the returned output is the first
`max_output_chars / 2` (floor) characters, then the separator
`"\n... [truncated] ...\n"`, then the last `max_output_chars / 2`
characters; its length is `2 * (max_output_chars / 2) + 21`, which equals
`max_output_chars + len(separator)` exactly when `max_output_chars` is
even (as it is for the default 50,000). -/
theorem truncation_keeps_floor_halves (b : LocalExecutionBackend)
    (command stdout stderr : PyStr) (rc : Int)
    (hmax : 2 ≤ b.max_output_chars)
    (hlong : b.max_output_chars < (combineOutput stdout stderr).length) :
    (b.execute command (ProcOutcome.completed stdout stderr rc)).output =
      (combineOutput stdout stderr).take (b.max_output_chars / 2) ++ truncMarker ++
        (combineOutput stdout stderr).drop
          ((combineOutput stdout stderr).length - b.max_output_chars / 2) ∧
    (b.execute command (ProcOutcome.completed stdout stderr rc)).output.length =
      2 * (b.max_output_chars / 2) + truncMarker.length ∧
    (b.max_output_chars % 2 = 0 →
      (b.execute command (ProcOutcome.completed stdout stderr rc)).output.length =
        b.max_output_chars + truncMarker.length) := by
  have hhalfpos : 0 < b.max_output_chars / 2 := Nat.div_pos hmax (by norm_num)
  have hhalfle : b.max_output_chars / 2 ≤ (combineOutput stdout stderr).length :=
    le_of_lt (lt_of_le_of_lt (Nat.div_le_self _ _) hlong)
  have hout : (b.execute command (ProcOutcome.completed stdout stderr rc)).output =
      (combineOutput stdout stderr).take (b.max_output_chars / 2) ++ truncMarker ++
        (combineOutput stdout stderr).drop
          ((combineOutput stdout stderr).length - b.max_output_chars / 2) := by
    simp only [LocalExecutionBackend.execute, pyTakeLast]
    rw [if_pos hlong, if_neg (Nat.pos_iff_ne_zero.mp hhalfpos)]
  have hlen : (b.execute command (ProcOutcome.completed stdout stderr rc)).output.length =
      2 * (b.max_output_chars / 2) + truncMarker.length := by
    rw [hout]
    simp only [List.length_append, List.length_take, List.length_drop]
    rw [Nat.min_eq_left hhalfle, Nat.sub_sub_self hhalfle]
    omega
  refine ⟨hout, hlen, fun heven => ?_⟩
  rw [hlen]
  omega

/-- Witness for C3 (amended) at `max_output_chars = 4` and combined output
`"abcde"`: both hypotheses hold concretely and the returned length is
`2 * (4 / 2) + 21 = 25`. -/
theorem truncation_keeps_floor_halves_witness :
    2 ≤ (initBackend ["w"] 120 4 none).max_output_chars ∧
    (initBackend ["w"] 120 4 none).max_output_chars
      < (combineOutput "abcde".data []).length ∧
    ((initBackend ["w"] 120 4 none).execute "c".data
        (ProcOutcome.completed "abcde".data [] 0)).output.length =
      2 * ((initBackend ["w"] 120 4 none).max_output_chars / 2) + truncMarker.length := by
  have h := truncation_keeps_floor_halves (initBackend ["w"] 120 4 none) "c".data
    "abcde".data [] 0 (by decide) (by decide)
  exact ⟨by decide, by decide, h.2.1⟩

lemma bestRoute_none_no_match {β : Type} (routes : List (PyStr × β)) (path : PyStr)
    (h : bestRoute routes path = none) :
    ∀ r ∈ routes, r.1.isPrefixOf path = false := by
  induction routes with
  | nil => intro r hr; exact absurd hr (List.not_mem_nil r)
  | cons hd tl ih =>
    simp only [bestRoute] at h
    by_cases hhd : hd.1.isPrefixOf path = true
    · rw [if_pos hhd] at h
      cases htl : bestRoute tl path with
      | none => rw [htl] at h; simp at h
      | some b =>
        rw [htl] at h
        by_cases hlen : b.1.length ≤ hd.1.length <;> simp [hlen] at h
    · rw [if_neg hhd] at h
      intro r hr
      rcases List.mem_cons.mp hr with h1 | h1
      · subst h1
        exact Bool.eq_false_iff.mpr hhd
      · exact ih h r h1

lemma bestRoute_some_spec {β : Type} :
    ∀ (routes : List (PyStr × β)) (path : PyStr) (pb : PyStr × β),
      bestRoute routes path = some pb →
      pb ∈ routes ∧ pb.1.isPrefixOf path = true ∧
        ∀ r ∈ routes, r.1.isPrefixOf path = true → r.1.length ≤ pb.1.length := by
  intro routes path
  induction routes with
  | nil => intro pb h; simp [bestRoute] at h
  | cons hd tl ih =>
    intro pb h
    simp only [bestRoute] at h
    by_cases hhd : hd.1.isPrefixOf path = true
    · rw [if_pos hhd] at h
      cases htl : bestRoute tl path with
      | none =>
        rw [htl] at h
        simp only [] at h
        injection h with hpb
        subst hpb
        refine ⟨List.mem_cons_self _ _, hhd, ?_⟩
        intro r hr hmatch
        rcases List.mem_cons.mp hr with h1 | h1
        · subst h1; exact le_refl _
        · exact absurd hmatch (by simp [bestRoute_none_no_match tl path htl r h1])
      | some b =>
        rw [htl] at h
        simp only [] at h
        obtain ⟨hbmem, hbpre, hbmax⟩ := ih b htl
        by_cases hlen : b.1.length ≤ hd.1.length
        · rw [if_pos hlen] at h
          injection h with hpb
          subst hpb
          refine ⟨List.mem_cons_self _ _, hhd, ?_⟩
          intro r hr hmatch
          rcases List.mem_cons.mp hr with h1 | h1
          · subst h1; exact le_refl _
          · exact le_trans (hbmax r h1 hmatch) hlen
        · rw [if_neg hlen] at h
          injection h with hpb
          subst hpb
          refine ⟨List.mem_cons_of_mem _ hbmem, hbpre, ?_⟩
          intro r hr hmatch
          rcases List.mem_cons.mp hr with h1 | h1
          · subst h1; exact le_of_lt (not_le.mp hlen)
          · exact hbmax r h1 hmatch
    · rw [if_neg hhd] at h
      obtain ⟨hbmem, hbpre, hbmax⟩ := ih pb h
      refine ⟨List.mem_cons_of_mem _ hbmem, hbpre, ?_⟩
      intro r hr hmatch
      rcases List.mem_cons.mp hr with h1 | h1
      · subst h1; exact absurd hmatch hhd
      · exact hbmax r h1 hmatch

/-- Claim C8: the router dispatches a path-carrying operation to the backend
of the longest registered prefix that is a literal prefix of the virtual
path, forwarding the path with that prefix stripped and a leading `/`
preserved; when no prefix matches it forwards to the default backend with
the path unchanged.  In particular, with default backend `A` and routes
`{"/skills/": B}`, `/skills/foo/SKILL.md` goes to `B` as `/foo/SKILL.md`
and `/data/x.csv` goes to `A` unchanged. -/
theorem composite_router_dispatch {β : Type} (c : CompositeBackend β)
    (path : PyStr) (A B : β) :
    (bestRoute c.routes path = none →
      (∀ r ∈ c.routes, r.1.isPrefixOf path = false) ∧
      dispatch c path = (c.default, path)) ∧
    (∀ pb, bestRoute c.routes path = some pb →
      pb ∈ c.routes ∧ pb.1.isPrefixOf path = true ∧
      (∀ r ∈ c.routes, r.1.isPrefixOf path = true → r.1.length ≤ pb.1.length) ∧
      dispatch c path = (pb.2, stripToRemainder pb.1 path)) ∧
    dispatch (CompositeBackend.mk A [("/skills/".data, B)]) "/skills/foo/SKILL.md".data
      = (B, "/foo/SKILL.md".data) ∧
    dispatch (CompositeBackend.mk A [("/skills/".data, B)]) "/data/x.csv".data
      = (A, "/data/x.csv".data) := by
  refine ⟨fun h => ⟨bestRoute_none_no_match _ _ h, by simp [dispatch, h]⟩,
    fun pb h => ?_, by rfl, by rfl⟩
  obtain ⟨h1, h2, h3⟩ := bestRoute_some_spec c.routes path pb h
  exact ⟨h1, h2, h3, by simp [dispatch, h]⟩

/-- Witness for C8: the spec's own scenario, with `A = 0` and `B = 1` as the
two backends. -/
theorem composite_router_dispatch_witness :
    dispatch (CompositeBackend.mk (0 : Nat) [("/skills/".data, 1)])
        "/skills/foo/SKILL.md".data = (1, "/foo/SKILL.md".data) :=
  (composite_router_dispatch (CompositeBackend.mk (0 : Nat) [("/skills/".data, 1)])
    "/skills/foo/SKILL.md".data 0 1).2.2.1

/-- Claim C9: the backend id is the literal `"local-exec-"` followed by the
final component of the configured working directory, and it depends on
nothing but that directory (so repeated reads, and instances sharing the
directory, agree). -/
theorem id_from_kind_and_dirname (b b' : LocalExecutionBackend)
    (h : b.cwd = b'.cwd) :
    b.id = "local-exec-" ++ pathName b.cwd ∧ b.id = b'.id := by
  refine ⟨rfl, ?_⟩
  simp [LocalExecutionBackend.id, h]

/-- Witness for C9 at two concrete instances sharing the directory
`["home", "workspace"]` but differing in every other configuration field. -/
theorem id_from_kind_and_dirname_witness :
    (initBackend ["home", "workspace"] 120 50000 none).cwd
      = (initBackend ["home", "workspace"] 60 100 none).cwd ∧
    (initBackend ["home", "workspace"] 120 50000 none).id = "local-exec-workspace" ∧
    (initBackend ["home", "workspace"] 120 50000 none).id
      = (initBackend ["home", "workspace"] 60 100 none).id := by
  have h := id_from_kind_and_dirname (initBackend ["home", "workspace"] 120 50000 none)
    (initBackend ["home", "workspace"] 60 100 none) rfl
  exact ⟨rfl, h.1.trans (by decide), h.2⟩

end CodeExec
